import Mathlib

/-!
Verification of the nfc-spy capture front-end (`app-rx/src/main/cpp/main.cpp`).

The program is a reconciliation supervisor: it observes JSON status
snapshots from a radio receiver task and a decoder task, computes a
configuration diff (`Main::detectChanges`), issues Configure/Start
commands, and runs a 500 ms poll loop with an optional capture time
limit (`Main::run`) and a cooperative shutdown (`Main::finish`).

The embedding below models nlohmann::json values as `Json`/`JsonObj`
(objects are association lists; the C++ `object_t` is a `std::map`, so
object literals below are written in the source's order and key-based
lookup is what the proofs use).  Machine integers in statuses are
modelled as `Int`.  nlohmann's non-const `operator[]` inserts a `null`
entry when the key is absent and throws `type_error.305` when applied
to a scalar; both behaviours are modelled (`jindex` returns `none` for
the throwing case, and fallible paths propagate `Option`).
-/

namespace NfcRx

mutual

/-- A JSON value as used by `main.cpp` (no arrays or floats occur in the
supervisor's configuration trees; numbers are modelled as `Int`). -/
inductive Json : Type where
  | null : Json
  | num : Int → Json
  | str : String → Json
  | bool : Bool → Json
  | obj : JsonObj → Json
  deriving DecidableEq

/-- The entry list of a JSON object (nlohmann `object_t`, a `std::map`
keyed by strings). -/
inductive JsonObj : Type where
  | nil : JsonObj
  | cons : String → Json → JsonObj → JsonObj
  deriving DecidableEq

end

/-- Key lookup in an object (first occurrence; a `std::map` has unique keys). -/
def jfind : JsonObj → String → Option Json
  | JsonObj.nil, _ => none
  | JsonObj.cons k' v r, k => if k = k' then some v else jfind r k

/-- Lexicographic character order on key lists (`std::string`'s
`operator<`, byte-wise for the ASCII keys that occur here). -/
def keyLtL : List Char → List Char → Bool
  | [], [] => false
  | [], _ :: _ => true
  | _ :: _, [] => false
  | c :: cs, d :: ds => c.toNat < d.toNat || (c.toNat = d.toNat && keyLtL cs ds)

/-- Key order of the `std::map` holding a JSON object. -/
def keyLt (a b : String) : Bool := keyLtL a.data b.data

/-- Models `std::map` insert-or-assign: replace the value of an existing key,
otherwise insert the key at its sorted position. -/
def jput : JsonObj → String → Json → JsonObj
  | JsonObj.nil, k, v => JsonObj.cons k v JsonObj.nil
  | JsonObj.cons k' v' r, k, v =>
      if k = k' then JsonObj.cons k' v r
      else if keyLt k k' then JsonObj.cons k v (JsonObj.cons k' v' r)
      else JsonObj.cons k' v' (jput r k v)

/-- Non-const `json::operator[]` on an object: return the value at `k`
(and the unchanged object) when present, else insert a `null` entry and
return that. -/
def jindexO (o : JsonObj) (k : String) : Json × JsonObj :=
  match jfind o k with
  | some v => (v, o)
  | none => (Json.null, jput o k Json.null)

/-- Non-const `json::operator[]` on an arbitrary value: a `null` value
becomes a one-entry object, an object behaves as `jindexO`, and any
scalar throws `type_error.305` (modelled as `none`). -/
def jindex : Json → String → Option (Json × JsonObj)
  | Json.null, k => some (Json.null, JsonObj.cons k Json.null JsonObj.nil)
  | Json.obj o, k => some (jindexO o k)
  | _, _ => none

/-- Models `ref[k] = v` (non-const `operator[]` followed by assignment): `null`
becomes a one-entry object, objects insert-or-assign, scalars throw. -/
def jassign : Json → String → Json → Option Json
  | Json.null, k, v => some (Json.obj (JsonObj.cons k v JsonObj.nil))
  | Json.obj o, k, v => some (Json.obj (jput o k v))
  | _, _, _ => none

/-- A local `json result;` accumulator is `null` while no key has been
assigned and an object afterwards. -/
def jsonOfAcc : JsonObj → Json
  | JsonObj.nil => Json.null
  | o => Json.obj o

/-- Models `json::empty()`: `true` for `null` and for an empty object, `false`
for scalars and non-empty objects. -/
def isEmptyJ : Json → Bool
  | Json.null => true
  | Json.obj JsonObj.nil => true
  | _ => false

/-- Models `json::is_object()`. -/
def isObjB : Json → Bool
  | Json.obj _ => true
  | _ => false

/-- Models `json::is_string()`. -/
def isStrB : Json → Bool
  | Json.str _ => true
  | _ => false

/-- The stored value at key `k` of an object value (`none` when the key
is absent or the value is not an object). -/
def jvals : Json → String → Option Json
  | Json.obj o, k => jfind o k
  | _, _ => none

/-- The value the source's `ref[k]` comparison sees: the stored value
when present, `null` otherwise (absence and `null` compare alike). -/
def oval (j : Json) (k : String) : Json := (jvals j k).getD Json.null

/-- Keys of an object entry list are pairwise distinct. -/
def nodupO : JsonObj → Bool
  | JsonObj.nil => true
  | JsonObj.cons k _ r => (jfind r k).isNone && nodupO r

mutual

/-- A configuration tree is well formed when every object in it has
strictly sorted keys (the `std::map` representation invariant). -/
def wfJ : Json → Bool
  | Json.obj o => wfO o
  | _ => true

/-- Entry lists with strictly increasing keys and well-formed values. -/
def wfO : JsonObj → Bool
  | JsonObj.nil => true
  | JsonObj.cons k v r => wfJ v && wfO r && sortedFrom k r

/-- All keys of the list are strictly above the bound `k`. -/
def sortedFrom (k : String) : JsonObj → Bool
  | JsonObj.nil => true
  | JsonObj.cons k' _ r => keyLt k k' && sortedFrom k r

end

mutual

/-- Models `Main::detectChanges(json &ref, json &set)`: for each entry of `set`,
recurse on object values (keeping only non-empty sub-diffs) and compare
scalar values, collecting differing entries into a fresh `result`.  The
non-const `ref[...]` accesses mutate `ref` (inserting `null` entries for
absent keys), so the mutated `ref` is returned alongside the result;
`none` models the `type_error` thrown by `operator[]` on a scalar.
Iterating a primitive (non-object, non-null) `set` yields a single item
with an empty key, as nlohmann's `items()` does. -/
def detectChanges (ref set : Json) : Option (Json × Json) :=
  match set with
  | Json.obj o =>
      match detectChangesObj ref o JsonObj.nil with
      | none => none
      | some (acc, ref') => some (jsonOfAcc acc, ref')
  | Json.null => some (Json.null, ref)
  | v =>
      match jindex ref "" with
      | none => none
      | some (cur, ro) =>
          some ((if cur ≠ v then Json.obj (JsonObj.cons "" v JsonObj.nil) else Json.null),
                Json.obj ro)

/-- The entry loop of `Main::detectChanges`, with the `result`
accumulator threaded explicitly. -/
def detectChangesObj (ref : Json) (entries : JsonObj) (acc : JsonObj) :
    Option (JsonObj × Json) :=
  match entries with
  | JsonObj.nil => some (acc, ref)
  | JsonObj.cons k v rest =>
    if isObjB v then
      match jindex ref k with
      | none => none
      | some (sub, ro) =>
        match detectChanges sub v with
        | none => none
        | some (tmp, sub') =>
            detectChangesObj (Json.obj (jput ro k sub')) rest
              (if isEmptyJ tmp then acc else jput acc k tmp)
    else
      match jindex ref k with
      | none => none
      | some (cur, ro) =>
          detectChangesObj (Json.obj ro) rest
            (if cur ≠ v then jput acc k v else acc)

end

/-- Builds an object entry list from a `List` literal. -/
def listToObj : List (String × Json) → JsonObj
  | [] => JsonObj.nil
  | (k, v) :: r => JsonObj.cons k v (listToObj r)

/-- Object literal helper. -/
def jobj (l : List (String × Json)) : Json := Json.obj (listToObj l)

/-- Models `Main::defaultReceiverParams`: per-device-type default profiles. -/
def defaultReceiverProfiles : JsonObj := listToObj [
  ("radio.airspy", jobj [
      ("centerFreq", Json.num 40680000),
      ("sampleRate", Json.num 10000000),
      ("gainMode", Json.num 1),
      ("gainValue", Json.num 3),
      ("mixerAgc", Json.num 0),
      ("tunerAgc", Json.num 0)]),
  ("radio.rtlsdr", jobj [
      ("centerFreq", Json.num 27120000),
      ("sampleRate", Json.num 3200000),
      ("gainMode", Json.num 1),
      ("gainValue", Json.num 77),
      ("mixerAgc", Json.num 0),
      ("tunerAgc", Json.num 0)])]

/-- The entries of `Main::decoderParams` as initialised in the source. -/
def decoderParamsInitO : JsonObj := listToObj [
  ("debugEnabled", Json.bool false),
  ("nfca", jobj [("enabled", Json.bool true)]),
  ("nfcb", jobj [("enabled", Json.bool true)]),
  ("nfcf", jobj [("enabled", Json.bool true)]),
  ("nfcv", jobj [("enabled", Json.bool true)])]

/-- Models `Main::decoderParams` as initialised in the source. -/
def decoderParamsInit : Json := Json.obj decoderParamsInitO

/-- Models `name.substr(0, name.find(':'))`: the device-type part of the
receiver identity (the whole string when it has no `:`). -/
def deviceKind (name : String) : String :=
  String.mk (name.data.takeWhile (fun c => c ≠ ':'))

/-- A command published to a task's command stream. -/
inductive Cmd : Type where
  | query : Cmd
  | configure : Json → Cmd
  | start : Cmd
  deriving DecidableEq

/-- The supervisor-local mutable state of `struct Main` that the claims
are about.  `executorStopped` models the Task Runtime's stopped flag
(set by `executor.shutdown()`). -/
structure MainState where
  terminate : Bool
  executorStopped : Bool
  receiverStatus : Json
  decoderStatus : Json
  decoderParams : Json
  receiverConfigured : Bool
  decoderConfigured : Bool
  deriving DecidableEq

/-- The state at the start of `Main::run` (both statuses are the
default-constructed `json {}`, which is `null`). -/
def initState : MainState :=
  { terminate := false
    executorStopped := false
    receiverStatus := Json.null
    decoderStatus := Json.null
    decoderParams := decoderParamsInit
    receiverConfigured := false
    decoderConfigured := false }

/-- Models `Main::checkReceiverStatus`: returns the `int` result, the updated
state and the commands published to the receiver command stream.
`none` models an uncaught json `type_error`. -/
def checkReceiverStatus (s : MainState) : Option (Int × MainState × List Cmd) :=
  if isEmptyJ s.receiverStatus then some (0, s, [])
  else
    match jindex s.receiverStatus "status" with
    | none => none
    | some (st, rs1) =>
      if st = Json.null ∨ st = Json.str "absent" then
        some (-1, { s with receiverStatus := Json.obj rs1 }, [])
      else
        match jindexO rs1 "name" with
        | (nm, rs2) =>
          match nm with
          | Json.str name =>
            match jindexO rs2 "sampleRate" with
            | (sr, rs3) =>
              match jassign s.decoderParams "sampleRate" sr with
              | none => none
              | some dp1 =>
                match jfind defaultReceiverProfiles (deviceKind name) with
                | none =>
                    some (-1, { s with receiverStatus := Json.obj rs3, decoderParams := dp1 }, [])
                | some profile =>
                  match detectChanges (Json.obj rs3) profile with
                  | none => none
                  | some (config, rs4) =>
                    if isEmptyJ config then
                      match jindex rs4 "status" with
                      | none => none
                      | some (st2, rs5) =>
                        some (0, { s with receiverStatus := Json.obj rs5,
                                          decoderParams := dp1,
                                          receiverConfigured := true },
                              if st2 = Json.str "idle" then [Cmd.start] else [])
                    else
                      some (0, { s with receiverStatus := rs4,
                                        decoderParams := dp1,
                                        receiverConfigured := false },
                            [Cmd.configure config])
          | _ => some (-1, { s with receiverStatus := Json.obj rs2 }, [])

/-- Models `Main::checkDecoderStatus`: returns the `int` result, the updated
state and the commands published to the decoder command stream. -/
def checkDecoderStatus (s : MainState) : Option (Int × MainState × List Cmd) :=
  if isEmptyJ s.decoderStatus then some (0, s, [])
  else
    match jindex s.decoderStatus "status" with
    | none => none
    | some (st, ds1) =>
      if st = Json.null then
        some (-1, { s with decoderStatus := Json.obj ds1 }, [])
      else
        match jindex s.decoderParams "sampleRate" with
        | none => none
        | some (sr, dp1) =>
          if sr = Json.null then
            some (0, { s with decoderStatus := Json.obj ds1,
                              decoderParams := Json.obj dp1 }, [])
          else
            match detectChanges (Json.obj ds1) (Json.obj dp1) with
            | none => none
            | some (config, ds2) =>
              if isEmptyJ config then
                match jindex ds2 "status" with
                | none => none
                | some (st2, ds3) =>
                  some (0, { s with decoderStatus := Json.obj ds3,
                                    decoderParams := Json.obj dp1,
                                    decoderConfigured := true },
                        if st2 = Json.str "idle" then [Cmd.start] else [])
              else
                some (0, { s with decoderStatus := ds2,
                                  decoderParams := Json.obj dp1,
                                  decoderConfigured := false },
                      [Cmd.configure config])

/-- Models `Main::finish`: ask the executor to stop all tasks, set the
termination flag and wake the poll loop. -/
def finish (s : MainState) : MainState :=
  { s with executorStopped := true, terminate := true }

/-- The time-limit test of `Main::run`:
`nsecs > 0 && (now - start) > std::chrono::seconds(nsecs)`,
with the elapsed wall-clock time in milliseconds. -/
def timeLimitHit (nsecs : Int) (elapsedMs : Nat) : Bool :=
  decide (0 < nsecs) && decide (nsecs * 1000 < (elapsedMs : Int))

/-- The commands published and shutdown requests made during one pass of
the poll loop. -/
structure Effects where
  receiverCmds : List Cmd
  decoderCmds : List Cmd
  finishCount : Nat
  deriving DecidableEq

/-- No effects. -/
def noEff : Effects := { receiverCmds := [], decoderCmds := [], finishCount := 0 }

/-- Effects of two consecutive loop passes. -/
def Effects.seq (a b : Effects) : Effects :=
  { receiverCmds := a.receiverCmds ++ b.receiverCmds
    decoderCmds := a.decoderCmds ++ b.decoderCmds
    finishCount := a.finishCount + b.finishCount }

/-- One iteration of the `while (!terminate)` loop of `Main::run`: exit
immediately when the termination flag is set, otherwise run the receiver
check, the decoder check and the time-limit check, each failure calling
`finish`.  Frame draining is modelled separately (`printFrame`). -/
def loopIter (nsecs : Int) (s : MainState) (elapsedMs : Nat) :
    Option (MainState × Effects) :=
  if s.terminate then some (s, noEff)
  else
    match checkReceiverStatus s with
    | none => none
    | some (r1, s1, rc) =>
      let s1b := if r1 < 0 then finish s1 else s1
      match checkDecoderStatus s1b with
      | none => none
      | some (r2, s2, dc) =>
        let s2b := if r2 < 0 then finish s2 else s2
        let hit := timeLimitHit nsecs elapsedMs
        let s3 := if hit then finish s2b else s2b
        some (s3, { receiverCmds := rc, decoderCmds := dc,
                    finishCount := (if r1 < 0 then 1 else 0) + (if r2 < 0 then 1 else 0) +
                      (if hit then 1 else 0) })

/-- Events visible to one poll tick: status snapshots delivered by the
bus subscriptions since the last tick (last-write-wins) and the elapsed
wall-clock time at the tick. -/
structure TickIn where
  rsUpd : Option Json
  dsUpd : Option Json
  elapsedMs : Nat

/-- Apply a tick's incoming status snapshots to the supervisor state. -/
def applyEvents (s : MainState) (t : TickIn) : MainState :=
  { s with receiverStatus := t.rsUpd.getD s.receiverStatus
           decoderStatus := t.dsUpd.getD s.decoderStatus }

/-- A run of the poll loop over a sequence of ticks; once the
termination flag is observed the loop exits and later ticks produce no
commands and no shutdown requests. -/
def loopRun (nsecs : Int) (s : MainState) : List TickIn → Option (MainState × Effects)
  | [] => some (s, noEff)
  | t :: ts =>
    if s.terminate then some (s, noEff)
    else
      match loopIter nsecs (applyEvents s t) t.elapsedMs with
      | none => none
      | some (s1, e1) =>
        match loopRun nsecs s1 ts with
        | none => none
        | some (s2, e2) => some (s2, e1.seq e2)

/-- Tests that `lhs` begins with `pat` (character-wise). -/
def leadsList : List Char → List Char → Bool
  | [], _ => true
  | _ :: _, [] => false
  | c :: cs, d :: ds => c = d && leadsList cs ds

/-- Models `std::string::find(pat) != npos`: `pat` occurs somewhere in `s`. -/
def occursIn (pat : List Char) (s : List Char) : Bool :=
  match s with
  | [] => leadsList pat []
  | _ :: rest => leadsList pat s || occursIn pat rest

/-- Models `protocols.find(fam) != std::string::npos` on Lean strings. -/
def strHas (s pat : String) : Bool := occursIn pat.data s.data

/-- Models `decoderParams[fam]["enabled"] = b` (both `operator[]`s may insert;
the inner one throws on a scalar). -/
def setEnabled (dp : Json) (fam : String) (b : Bool) : Option Json :=
  match jindex dp fam with
  | none => none
  | some (sub, o1) =>
    match jassign sub "enabled" (Json.bool b) with
    | none => none
    | some sub' => some (Json.obj (jput o1 fam sub'))

/-- The `-p` option handler of `Main::run`: each protocol family is
enabled exactly when its name occurs in the option value (a
`std::string::find` substring test). -/
def setProtocols (dp : Json) (protocols : String) : Option Json := do
  let d1 ← setEnabled dp "nfca" (strHas protocols "nfca")
  let d2 ← setEnabled d1 "nfcb" (strHas protocols "nfcb")
  let d3 ← setEnabled d2 "nfcf" (strHas protocols "nfcf")
  setEnabled d3 "nfcv" (strHas protocols "nfcv")

/-- Modelled from the spec: the spec describes the `-p` value as a
"comma-separated list restricting which of four protocol families are
enabled"; this is that reading — split at commas, then test membership.
Used only to compare the spec's wording with the source's substring
test. -/
def splitCommas : List Char → List (List Char)
  | [] => [[]]
  | c :: r =>
      let rest := splitCommas r
      if c = ',' then [] :: rest
      else
        match rest with
        | h :: t => (c :: h) :: t
        | [] => [[c]]

/-- Membership of a family name in the comma-separated flag value (the
spec's words for C8, not the source's test). -/
def listedIn (protocols fam : String) : Bool :=
  (splitCommas protocols.data).contains fam.data

/-- The value of `sizeof(buffer)` in `Main::printFrame`. -/
def BUFSZ : Nat := 16384

/-- Models `sizeof(buffer) - offset` as the C++ `size_t` it is: the `int`
offset is converted to `size_t` and the subtraction wraps modulo 2^64. -/
def sizetBufMinus (off : Nat) : Nat := (BUFSZ + 2 ^ 64 - off) % 2 ^ 64

/-- One `snprintf(buffer + off, size, ...)` call producing a string of
`len` characters stays inside the 16384-byte buffer: it writes
`min (len + 1) size` bytes at `off` (nothing when `size = 0`). -/
def snprintfOk (off size len : Nat) : Bool :=
  size = 0 || decide (off + min (len + 1) size ≤ BUFSZ)

/-- The hex loop of `Main::printFrame`: each payload byte is rendered as
three characters (`"%02X "`), `snprintf` is called with size
`sizeof(buffer) - offset`, and `offset` grows by `snprintf`'s return
value, which is the untruncated length 3. -/
def hexLoopOk (off : Nat) : Nat → Bool
  | 0 => true
  | n + 1 => snprintfOk off (sizetBufMinus off) 3 && hexLoopOk (off + 3) n

/-- All buffer writes of `Main::printFrame` stay in bounds, for a frame
whose rendered timestamp, frame-type and tech headers have the given
lengths and whose payload has `payload` bytes (`dataFrame` selects the
poll/listen branch).  The three header `snprintf` calls pass
`sizeof(buffer)` — not the remaining space — as their size, exactly as
the source does. -/
def printFrameOk (timeLen typeLen techLen : Nat) (dataFrame : Bool) (payload : Nat) : Bool :=
  snprintfOk 0 BUFSZ timeLen &&
  snprintfOk timeLen BUFSZ typeLen &&
  (if dataFrame then
      snprintfOk (timeLen + typeLen) BUFSZ techLen &&
      hexLoopOk (timeLen + typeLen + techLen) payload
   else true)


/-! ## Order and lookup lemmas -/

theorem keyLtL_irrefl : ∀ l : List Char, keyLtL l l = false
  | [] => rfl
  | c :: cs => by simp [keyLtL, keyLtL_irrefl cs]

theorem keyLt_irrefl (k : String) : keyLt k k = false := keyLtL_irrefl k.data

theorem keyLtL_asymm : ∀ a b : List Char, keyLtL a b = true → keyLtL b a = false
  | [], [] => by simp [keyLtL]
  | [], _ :: _ => by simp [keyLtL]
  | _ :: _, [] => by simp [keyLtL]
  | c :: cs, d :: ds => by
      simp only [keyLtL, Bool.or_eq_true, Bool.and_eq_true, decide_eq_true_eq,
        Bool.or_eq_false_iff, Bool.and_eq_false_iff, decide_eq_false_iff_not]
      rintro (h | ⟨h1, h2⟩)
      · exact ⟨not_lt_of_gt h, Or.inl (ne_of_gt h)⟩
      · exact ⟨by simp [h1], Or.inr (keyLtL_asymm cs ds h2)⟩

theorem keyLt_asymm (a b : String) : keyLt a b = true → keyLt b a = false :=
  keyLtL_asymm a.data b.data

theorem sortedFrom_find : ∀ (r : JsonObj) (b k : String) (v : Json),
    sortedFrom b r = true → jfind r k = some v → keyLt b k = true
  | JsonObj.nil, b, k, v, _, h => by simp [jfind] at h
  | JsonObj.cons k' v' r', b, k, v, hs, hf => by
      simp only [sortedFrom, Bool.and_eq_true] at hs
      simp only [jfind] at hf
      by_cases hk : k = k'
      · exact hk ▸ hs.1
      · exact sortedFrom_find r' b k v hs.2 (by simpa [hk] using hf)

theorem jput_id : ∀ (o : JsonObj) (k : String) (v : Json),
    wfO o = true → jfind o k = some v → jput o k v = o
  | JsonObj.nil, k, v, _, h => by simp [jfind] at h
  | JsonObj.cons k' v' r, k, v, hw, hf => by
      simp only [wfO, Bool.and_eq_true] at hw
      simp only [jfind] at hf
      by_cases hk : k = k'
      · subst hk
        rw [if_pos rfl] at hf
        injection hf with hv
        subst hv
        simp [jput]
      · simp only [if_neg hk] at hf
        have hlt : keyLt k' k = true := sortedFrom_find r k' k v hw.2 hf
        have hnlt : keyLt k k' = false := keyLt_asymm k' k hlt
        simp [jput, hk, hnlt, jput_id r k v hw.1.2 hf]

theorem jfind_jput_same : ∀ (o : JsonObj) (k : String) (v : Json),
    jfind (jput o k v) k = some v
  | JsonObj.nil, k, v => by simp [jput, jfind]
  | JsonObj.cons k' v' r, k, v => by
      by_cases hk : k = k'
      · subst hk; simp [jput, jfind]
      · by_cases hlt : keyLt k k' = true
        · simp [jput, hk, hlt, jfind]
        · simp [jput, hk, hlt, jfind, jfind_jput_same r k v]

theorem jfind_jput_other : ∀ (o : JsonObj) (k : String) (v : Json) (k' : String),
    k' ≠ k → jfind (jput o k v) k' = jfind o k'
  | JsonObj.nil, k, v, k', hne => by simp [jput, jfind, hne]
  | JsonObj.cons k2 v2 r, k, v, k', hne => by
      by_cases hk : k = k2
      · subst hk; simp [jput, jfind, hne]
      · by_cases hlt : keyLt k k2 = true
        · simp [jput, hk, hlt, jfind, hne]
        · by_cases hk2 : k' = k2
          · simp [jput, hk, hlt, jfind, hk2]
          · simp [jput, hk, hlt, jfind, hk2, jfind_jput_other r k v k' hne]

theorem jindex_spec : ∀ (ref : Json) (k : String) (v : Json) (ro : JsonObj),
    jindex ref k = some (v, ro) →
    v = oval ref k ∧ jfind ro k = some (oval ref k) ∧
      ∀ k', k' ≠ k → jfind ro k' = jvals ref k' := by
  intro ref k v ro h
  cases ref with
  | null =>
      simp only [jindex, Option.some.injEq, Prod.mk.injEq] at h
      obtain ⟨hv, hro⟩ := h
      subst hv; subst hro
      refine ⟨rfl, by simp [jfind, oval, jvals], ?_⟩
      intro k' hne; simp [jfind, hne, jvals]
  | obj o =>
      simp only [jindex, Option.some.injEq] at h
      rw [jindexO] at h
      cases hf : jfind o k with
      | some w =>
          rw [hf] at h
          cases h
          refine ⟨by simp [oval, jvals, hf], by simp [oval, jvals, hf], ?_⟩
          intro k' _; simp [jvals]
      | none =>
          rw [hf] at h
          cases h
          refine ⟨by simp [oval, jvals, hf], ?_, ?_⟩
          · simp [oval, jvals, hf, jfind_jput_same]
          · intro k' hne; simp [jvals, jfind_jput_other _ _ _ _ hne]
  | num n => simp [jindex] at h
  | str s => simp [jindex] at h
  | bool b => simp [jindex] at h


/-! ## Characterisation of the differ -/

/-- Per-key behaviour of the `detectChanges` entry loop: keys outside
`entries` are untouched in both the accumulator and the reference; a key
of `entries` with an object value is settled by the recursive call on
the reference's value at that key (absent keys recurse from `null`),
its sub-diff stored when non-empty and the mutated subtree written back;
a key with a scalar value stores the desired value exactly when it
differs from the observed one, and the observed tree afterwards holds
its old value (or an inserted `null`) at that key. -/
theorem dco_spec : ∀ (entries : JsonObj) (ref : Json) (acc accOut : JsonObj) (refOut : Json),
    nodupO entries = true →
    detectChangesObj ref entries acc = some (accOut, refOut) →
    ∀ k : String,
      (jfind entries k = none →
        jfind accOut k = jfind acc k ∧ jvals refOut k = jvals ref k) ∧
      (∀ d, jfind entries k = some d →
        (isObjB d = true → ∃ tmp sub',
            detectChanges (oval ref k) d = some (tmp, sub') ∧
            jvals refOut k = some sub' ∧
            jfind accOut k = (if isEmptyJ tmp then jfind acc k else some tmp)) ∧
        (isObjB d = false →
            jvals refOut k = some (oval ref k) ∧
            jfind accOut k = (if oval ref k ≠ d then some d else jfind acc k)))
  | JsonObj.nil, ref, acc, accOut, refOut, _, h, k => by
      simp only [detectChangesObj, Option.some.injEq, Prod.mk.injEq] at h
      obtain ⟨ha, hr⟩ := h
      subst ha; subst hr
      exact ⟨fun _ => ⟨rfl, rfl⟩, fun d hd => by simp [jfind] at hd⟩
  | JsonObj.cons k0 v0 rest, ref, acc, accOut, refOut, hnd, h, k => by
      simp only [nodupO, Bool.and_eq_true, Option.isNone_iff_eq_none] at hnd
      obtain ⟨hk0, hndr⟩ := hnd
      simp only [detectChangesObj] at h
      by_cases hobj : isObjB v0 = true
      · rw [if_pos hobj] at h
        cases hji : jindex ref k0 with
        | none => rw [hji] at h; exact absurd h (by simp)
        | some pr =>
          obtain ⟨sub, ro⟩ := pr
          rw [hji] at h
          simp only [] at h
          cases hdc : detectChanges sub v0 with
          | none => rw [hdc] at h; exact absurd h (by simp)
          | some pr2 =>
            obtain ⟨tmp, sub'⟩ := pr2
            rw [hdc] at h
            simp only [] at h
            obtain ⟨hsub, hrok, hrofr⟩ := jindex_spec ref k0 sub ro hji
            subst hsub
            have ih := dco_spec rest (Json.obj (jput ro k0 sub'))
              (if isEmptyJ tmp then acc else jput acc k0 tmp) accOut refOut hndr h
            by_cases hkk : k = k0
            · subst hkk
              have hfr := (ih k).1 hk0
              refine ⟨fun hnone => ?_, fun d hd => ?_⟩
              · simp [jfind] at hnone
              · rw [jfind, if_pos rfl] at hd
                injection hd with hd
                subst hd
                refine ⟨fun _ => ⟨tmp, sub', hdc, ?_, ?_⟩, fun habs => by simp [hobj] at habs⟩
                · rw [hfr.2]
                  simp [jvals, jfind_jput_same]
                · rw [hfr.1]
                  by_cases he : isEmptyJ tmp = true
                  · simp [he]
                  · simp [he, jfind_jput_same]
            · have hmain := ih k
              refine ⟨fun hnone => ?_, fun d hd => ?_⟩
              · have hrn : jfind rest k = none := by
                  rw [jfind, if_neg hkk] at hnone; exact hnone
                have hfr := hmain.1 hrn
                refine ⟨?_, ?_⟩
                · rw [hfr.1]
                  by_cases he : isEmptyJ tmp = true
                  · simp [he]
                  · simp [he, jfind_jput_other _ _ _ _ hkk]
                · rw [hfr.2]
                  simp [jvals, jfind_jput_other _ _ _ _ hkk, hrofr k hkk]
              · have hdrest : jfind rest k = some d := by
                  rw [jfind, if_neg hkk] at hd; exact hd
                have hchar := hmain.2 d hdrest
                have hov : oval (Json.obj (jput ro k0 sub')) k = oval ref k := by
                  simp [oval, jvals, jfind_jput_other _ _ _ _ hkk, hrofr k hkk]
                have hacc2 : jfind (if isEmptyJ tmp then acc else jput acc k0 tmp) k = jfind acc k := by
                  by_cases he : isEmptyJ tmp = true
                  · simp [he]
                  · simp [he, jfind_jput_other _ _ _ _ hkk]
                rw [hov, hacc2] at hchar
                exact hchar
      · rw [if_neg hobj] at h
        cases hji : jindex ref k0 with
        | none => rw [hji] at h; exact absurd h (by simp)
        | some pr =>
          obtain ⟨cur, ro⟩ := pr
          rw [hji] at h
          simp only [] at h
          obtain ⟨hsub, hrok, hrofr⟩ := jindex_spec ref k0 cur ro hji
          subst hsub
          have ih := dco_spec rest (Json.obj ro)
            (if oval ref k0 ≠ v0 then jput acc k0 v0 else acc) accOut refOut hndr h
          by_cases hkk : k = k0
          · subst hkk
            have hfr := (ih k).1 hk0
            refine ⟨fun hnone => ?_, fun d hd => ?_⟩
            · simp [jfind] at hnone
            · rw [jfind, if_pos rfl] at hd
              injection hd with hd
              subst hd
              refine ⟨fun hko => by simp [hko] at hobj, fun _ => ⟨?_, ?_⟩⟩
              · rw [hfr.2]
                simp [jvals, hrok]
              · rw [hfr.1]
                by_cases hne : oval ref k ≠ v0
                · simp [hne, jfind_jput_same]
                · simp [hne]
          · have hmain := ih k
            refine ⟨fun hnone => ?_, fun d hd => ?_⟩
            · have hrn : jfind rest k = none := by
                rw [jfind, if_neg hkk] at hnone; exact hnone
              have hfr := hmain.1 hrn
              refine ⟨?_, ?_⟩
              · rw [hfr.1]
                by_cases hne : oval ref k0 ≠ v0
                · simp [hne, jfind_jput_other _ _ _ _ hkk]
                · simp [hne]
              · rw [hfr.2]
                simp [jvals, hrofr k hkk]
            · have hdrest : jfind rest k = some d := by
                rw [jfind, if_neg hkk] at hd; exact hd
              have hchar := hmain.2 d hdrest
              have hov : oval (Json.obj ro) k = oval ref k := by
                simp [oval, jvals, hrofr k hkk]
              have hacc2 : jfind (if oval ref k0 ≠ v0 then jput acc k0 v0 else acc) k = jfind acc k := by
                by_cases hne : oval ref k0 ≠ v0
                · simp [hne, jfind_jput_other _ _ _ _ hkk]
                · simp [hne]
              rw [hov, hacc2] at hchar
              exact hchar


/-! ## Identity of the differ on equal trees -/

theorem wfO_find : ∀ (o : JsonObj) (k : String) (v : Json),
    wfO o = true → jfind o k = some v → wfJ v = true
  | JsonObj.nil, k, v, _, h => by simp [jfind] at h
  | JsonObj.cons k' v' r, k, v, hw, hf => by
      simp only [wfO, Bool.and_eq_true] at hw
      rw [jfind] at hf
      by_cases hk : k = k'
      · rw [if_pos hk] at hf
        injection hf with hf
        exact hf ▸ hw.1.1
      · rw [if_neg hk] at hf
        exact wfO_find r k v hw.1.2 hf

/-- Tests that `e` is a suffix of the entry list `o`. -/
def isSfxO : JsonObj → JsonObj → Bool
  | e, JsonObj.nil => decide (e = JsonObj.nil)
  | e, JsonObj.cons k v r => decide (e = JsonObj.cons k v r) || isSfxO e r

theorem isSfxO_refl : ∀ e : JsonObj, isSfxO e e = true
  | JsonObj.nil => by simp [isSfxO]
  | JsonObj.cons k v r => by simp [isSfxO]

theorem isSfxO_tail : ∀ (o : JsonObj) (k : String) (v : Json) (rest : JsonObj),
    isSfxO (JsonObj.cons k v rest) o = true → isSfxO rest o = true
  | JsonObj.nil, k, v, rest, h => by simp [isSfxO] at h
  | JsonObj.cons k0 v0 r, k, v, rest, h => by
      simp only [isSfxO, Bool.or_eq_true, decide_eq_true_eq] at h
      rcases h with h | h
      · injection h with h1 h2 h3
        subst h3
        simp [isSfxO, isSfxO_refl]
      · simp [isSfxO, isSfxO_tail r k v rest h]

theorem isSfxO_find : ∀ (o : JsonObj) (k : String) (v : Json) (rest : JsonObj),
    wfO o = true → isSfxO (JsonObj.cons k v rest) o = true →
    jfind o k = some v
  | JsonObj.nil, k, v, rest, _, h => by simp [isSfxO] at h
  | JsonObj.cons k0 v0 r, k, v, rest, hw, h => by
      simp only [wfO, Bool.and_eq_true] at hw
      simp only [isSfxO, Bool.or_eq_true, decide_eq_true_eq] at h
      rcases h with h | h
      · injection h with h1 h2 h3
        subst h1; subst h2
        simp [jfind]
      · have hr : jfind r k = some v := isSfxO_find r k v rest hw.1.2 h
        have hne : k ≠ k0 := by
          intro hek
          subst hek
          have hlt : keyLt k k = true := sortedFrom_find r k k v hw.2 hr
          rw [keyLt_irrefl] at hlt
          cases hlt
        simp [jfind, hne, hr]


theorem dco_id : ∀ (entries o acc : JsonObj),
    wfO o = true → isSfxO entries o = true →
    detectChangesObj (Json.obj o) entries acc = some (acc, Json.obj o)
  | JsonObj.nil, o, acc, _, _ => by simp [detectChangesObj]
  | JsonObj.cons k v rest, o, acc, hw, hsfx => by
      have hf : jfind o k = some v := isSfxO_find o k v rest hw hsfx
      have hwv : wfJ v = true := wfO_find o k v hw hf
      have htail : isSfxO rest o = true := isSfxO_tail o k v rest hsfx
      have hji : jindex (Json.obj o) k = some (v, o) := by
        simp [jindex, jindexO, hf]
      rw [detectChangesObj]
      by_cases hobj : isObjB v = true
      · rw [if_pos hobj]
        cases v with
        | obj o1 =>
            have hid : detectChangesObj (Json.obj o1) o1 JsonObj.nil =
                some (JsonObj.nil, Json.obj o1) :=
              dco_id o1 o1 JsonObj.nil (by simpa [wfJ] using hwv) (isSfxO_refl o1)
            have hdc : detectChanges (Json.obj o1) (Json.obj o1) =
                some (Json.null, Json.obj o1) := by
              rw [detectChanges, hid]
              rfl
            rw [hji]
            simp only []
            rw [hdc]
            simp only [isEmptyJ, if_pos rfl]
            rw [jput_id o k (Json.obj o1) hw hf]
            exact dco_id rest o acc hw htail
        | null => simp [isObjB] at hobj
        | num n => simp [isObjB] at hobj
        | str t => simp [isObjB] at hobj
        | bool b => simp [isObjB] at hobj
      · rw [if_neg hobj]
        rw [hji]
        simp only [ne_eq, not_true_eq_false, if_neg (by simp : ¬ v ≠ v)]
        exact dco_id rest o acc hw htail

/-- Diffing a tree against itself succeeds with an empty (`null`) result and leaves `X`
unchanged, for any well-formed configuration tree (an object, or the
initial `null`). -/
theorem detectChanges_id (X : Json) (hwf : wfJ X = true)
    (hconf : isObjB X = true ∨ X = Json.null) :
    detectChanges X X = some (Json.null, X) := by
  rcases hconf with hobj | hnull
  · cases X with
    | obj o =>
        rw [detectChanges, dco_id o o JsonObj.nil (by simpa [wfJ] using hwf) (isSfxO_refl o)]
        rfl
    | null => simp [isObjB] at hobj
    | num n => simp [isObjB] at hobj
    | str t => simp [isObjB] at hobj
    | bool b => simp [isObjB] at hobj
  · subst hnull; rfl


/-! ## Bounds of the printFrame hex loop -/

theorem snprintfOk_head (off : Nat) (h : off ≤ BUFSZ) :
    snprintfOk off (sizetBufMinus off) 3 = true := by
  have hsz : sizetBufMinus off = BUFSZ - off := by
    rw [sizetBufMinus]
    have heq : BUFSZ + 2 ^ 64 - off = (BUFSZ - off) + 2 ^ 64 := by
      simp only [BUFSZ] at *
      omega
    rw [heq, Nat.add_mod_right]
    exact Nat.mod_eq_of_lt (by simp only [BUFSZ] at *; omega)
  rw [snprintfOk, hsz]
  rcases Nat.eq_zero_or_pos (BUFSZ - off) with h0 | hpos
  · simp [h0]
  · simp only [Bool.or_eq_true, decide_eq_true_eq]
    right
    simp only [Nat.min_def]
    split <;> omega

theorem hexLoop_oob : ∀ (n off : Nat), BUFSZ < off → off + 4 ≤ BUFSZ + 2 ^ 64 →
    0 < n → hexLoopOk off n = false
  | 0, _, _, _, hn => absurd hn (by omega)
  | n + 1, off, hlo, hhi, _ => by
      rw [hexLoopOk]
      have hsz : sizetBufMinus off = BUFSZ + 2 ^ 64 - off := by
        rw [sizetBufMinus, Nat.mod_eq_of_lt (by omega)]
      have hhead : snprintfOk off (sizetBufMinus off) 3 = false := by
        rw [snprintfOk, hsz]
        simp only [Bool.or_eq_false_iff, decide_eq_false_iff_not]
        constructor
        · omega
        · simp only [Nat.min_def]
          split <;> omega
      simp [hhead]

theorem hexLoop_cross : ∀ (n off : Nat), off ≤ BUFSZ → BUFSZ + 3 < off + 3 * n →
    hexLoopOk off n = false
  | 0, off, hle, hcross => absurd hcross (by omega)
  | n + 1, off, hle, hcross => by
      rw [hexLoopOk, snprintfOk_head off hle, Bool.true_and]
      rcases Nat.lt_or_ge BUFSZ (off + 3) with hgt | hle3
      · exact hexLoop_oob n (off + 3) hgt (by simp only [BUFSZ] at *; omega) (by omega)
      · exact hexLoop_cross n (off + 3) hle3 (by omega)

theorem hexLoop_inBounds : ∀ (n off : Nat), off + 3 * n ≤ BUFSZ + 3 →
    hexLoopOk off n = true
  | 0, off, _ => rfl
  | n + 1, off, h => by
      rw [hexLoopOk, snprintfOk_head off (by omega), Bool.true_and]
      exact hexLoop_inBounds n (off + 3) (by omega)

/-! ## Loop shutdown lemmas -/

theorem loopRun_terminated (nsecs : Int) (s : MainState) (hterm : s.terminate = true) :
    ∀ ts : List TickIn, loopRun nsecs s ts = some (s, noEff)
  | [] => rfl
  | t :: ts => by rw [loopRun, if_pos hterm]


/-! ## Reconciliation-step lemmas -/

theorem jindexO_fst (o : JsonObj) (k : String) :
    (jindexO o k).fst = oval (Json.obj o) k := by
  cases hf : jfind o k <;> simp [jindexO, hf, oval, jvals]

theorem jindexO_snd_find (o : JsonObj) (k k' : String) (hne : k' ≠ k) :
    jfind (jindexO o k).snd k' = jfind o k' := by
  cases hf : jfind o k <;> simp [jindexO, hf, jfind_jput_other _ _ _ _ hne]

theorem jindexO_snd_self (o : JsonObj) (k : String) :
    jfind (jindexO o k).snd k = some ((jindexO o k).fst) := by
  cases hf : jfind o k <;> simp [jindexO, hf, jfind_jput_same]

/-- A non-empty receiver snapshot whose `status` is `null` or `"absent"`,
or whose `name` is not a string, makes `checkReceiverStatus` return `-1`
without publishing any command; only `receiverStatus` is touched. -/
theorem crs_bad (s : MainState) (rs : JsonObj)
    (hrs : s.receiverStatus = Json.obj rs)
    (hne : isEmptyJ (Json.obj rs) = false)
    (hbad : oval (Json.obj rs) "status" = Json.null ∨
            oval (Json.obj rs) "status" = Json.str "absent" ∨
            isStrB (oval (Json.obj rs) "name") = false) :
    ∃ s', checkReceiverStatus s = some (-1, s', []) ∧
      s'.decoderStatus = s.decoderStatus ∧ s'.decoderParams = s.decoderParams ∧
      s'.terminate = s.terminate ∧ s'.executorStopped = s.executorStopped := by
  rcases hsp : jindexO rs "status" with ⟨st, rs1⟩
  have hst_eq : st = oval (Json.obj rs) "status" := by
    have h := jindexO_fst rs "status"
    rw [hsp] at h
    exact h
  have hj : jindex (Json.obj rs) "status" = some (st, rs1) := by
    simp [jindex, hsp]
  rw [checkReceiverStatus, hrs, if_neg (by simp [hne]), hj]
  simp only []
  by_cases hbadst : st = Json.null ∨ st = Json.str "absent"
  · rw [if_pos hbadst]
    exact ⟨_, rfl, rfl, rfl, rfl, rfl⟩
  · rw [if_neg hbadst]
    have hname : isStrB (oval (Json.obj rs) "name") = false := by
      rcases hbad with h | h | h
      · exact absurd (Or.inl (by rw [hst_eq, h])) hbadst
      · exact absurd (Or.inr (by rw [hst_eq, h])) hbadst
      · exact h
    rcases hnp : jindexO rs1 "name" with ⟨nm, rs2⟩
    have hnm_eq : nm = oval (Json.obj rs) "name" := by
      have h1 := jindexO_fst rs1 "name"
      rw [hnp] at h1
      have h2 : jfind rs1 "name" = jfind rs "name" := by
        have h3 := jindexO_snd_find rs "status" "name" (by decide)
        rw [hsp] at h3
        exact h3
      have h1b : nm = oval (Json.obj rs1) "name" := by simpa using h1
      rw [h1b]
      simp [oval, jvals, h2]
    simp only [hnp]
    cases nm with
    | str t => rw [← hnm_eq] at hname; simp [isStrB] at hname
    | null => exact ⟨_, rfl, rfl, rfl, rfl, rfl⟩
    | num n => exact ⟨_, rfl, rfl, rfl, rfl, rfl⟩
    | bool b => exact ⟨_, rfl, rfl, rfl, rfl, rfl⟩
    | obj o => exact ⟨_, rfl, rfl, rfl, rfl, rfl⟩


/-! ## Claim C4 -/

/-- C4: in a run whose receiver snapshot reports `status: absent` (or a
null status, or a missing name), the reconciliation tick publishes no
receiver and no decoder command, requests exactly one shutdown, sets the
termination flag, and every later tick of the loop produces no commands
and no further shutdown requests. -/
theorem claim_c4_terminal_failure (nsecs : Int) (elapsedMs : Nat) (s : MainState) (rs : JsonObj)
    (hterm : s.terminate = false)
    (hrs : s.receiverStatus = Json.obj rs)
    (hne : isEmptyJ (Json.obj rs) = false)
    (hbad : oval (Json.obj rs) "status" = Json.null ∨
            oval (Json.obj rs) "status" = Json.str "absent" ∨
            isStrB (oval (Json.obj rs) "name") = false)
    (hdec : s.decoderStatus = Json.null)
    (htime : timeLimitHit nsecs elapsedMs = false) :
    ∃ s' e, loopIter nsecs s elapsedMs = some (s', e) ∧
      e.receiverCmds = [] ∧ e.decoderCmds = [] ∧ e.finishCount = 1 ∧
      s'.terminate = true ∧
      ∀ ts : List TickIn, loopRun nsecs s' ts = some (s', noEff) := by
  obtain ⟨s1, hcrs, hds, _, _, _⟩ := crs_bad s rs hrs hne hbad
  have hcds : checkDecoderStatus (finish s1) = some (0, finish s1, []) := by
    rw [checkDecoderStatus]
    have hnull : (finish s1).decoderStatus = Json.null := by simp [finish, hds, hdec]
    rw [hnull]
    simp [isEmptyJ]
  have hli : loopIter nsecs s elapsedMs =
      some (finish s1, { receiverCmds := [], decoderCmds := [], finishCount := 1 }) := by
    rw [loopIter, if_neg (by simp [hterm]), hcrs]
    simp only []
    rw [if_pos (show (-1 : Int) < 0 by norm_num)]
    rw [hcds]
    simp only []
    rw [if_neg (show ¬ (0 : Int) < 0 by norm_num), htime]
    simp
  exact ⟨finish s1, _, hli, rfl, rfl, rfl, rfl,
    loopRun_terminated nsecs (finish s1) rfl⟩

/-- Witness for C4 at a concrete absent-receiver snapshot. -/
theorem claim_c4_witness :
    ∃ s' e, loopIter (-1) { initState with receiverStatus := jobj [("status", Json.str "absent")] } 0 =
        some (s', e) ∧
      e.receiverCmds = [] ∧ e.decoderCmds = [] ∧ e.finishCount = 1 ∧
      s'.terminate = true ∧
      ∀ ts : List TickIn, loopRun (-1) s' ts = some (s', noEff) :=
  claim_c4_terminal_failure (-1) 0
    { initState with receiverStatus := jobj [("status", Json.str "absent")] }
    (listToObj [("status", Json.str "absent")])
    rfl rfl (by decide) (Or.inr (Or.inl (by decide))) rfl (by decide)


/-! ## Claim C1 -/

/-- A good status and a string name whose device-type part has no
default profile: `checkReceiverStatus` logs and returns `-1` with no
command; the sample rate has already been copied into the decoder's
desired configuration. -/
theorem crs_unknown (s : MainState) (rs dpo : JsonObj) (nm : String)
    (hrs : s.receiverStatus = Json.obj rs)
    (hne : isEmptyJ (Json.obj rs) = false)
    (hst1 : oval (Json.obj rs) "status" ≠ Json.null)
    (hst2 : oval (Json.obj rs) "status" ≠ Json.str "absent")
    (hnm : jvals (Json.obj rs) "name" = some (Json.str nm))
    (hdp : s.decoderParams = Json.obj dpo)
    (hunk : jfind defaultReceiverProfiles (deviceKind nm) = none) :
    ∃ s', checkReceiverStatus s = some (-1, s', []) ∧
      s'.decoderStatus = s.decoderStatus ∧ s'.terminate = s.terminate ∧
      s'.executorStopped = s.executorStopped ∧
      oval s'.decoderParams "sampleRate" = oval (Json.obj rs) "sampleRate" := by
  rcases hsp : jindexO rs "status" with ⟨st, rs1⟩
  have hst_eq : st = oval (Json.obj rs) "status" := by
    have h := jindexO_fst rs "status"
    rw [hsp] at h
    exact h
  have hj : jindex (Json.obj rs) "status" = some (st, rs1) := by
    simp [jindex, hsp]
  have hfr1 : ∀ k', k' ≠ "status" → jfind rs1 k' = jfind rs k' := by
    intro k' hk
    have h := jindexO_snd_find rs "status" k' hk
    rw [hsp] at h
    exact h
  have hnm1 : jfind rs1 "name" = some (Json.str nm) := by
    rw [hfr1 "name" (by decide)]
    exact hnm
  have hnp : jindexO rs1 "name" = (Json.str nm, rs1) := by
    simp [jindexO, hnm1]
  rcases hsr : jindexO rs1 "sampleRate" with ⟨sr, rs3⟩
  have hsr_eq : sr = oval (Json.obj rs) "sampleRate" := by
    have h := jindexO_fst rs1 "sampleRate"
    rw [hsr] at h
    simp only [] at h
    rw [h]
    simp [oval, jvals, hfr1 "sampleRate" (by decide)]
  have hassign : jassign s.decoderParams "sampleRate" sr =
      some (Json.obj (jput dpo "sampleRate" sr)) := by
    rw [hdp]; rfl
  rw [checkReceiverStatus, hrs, if_neg (by simp [hne]), hj]
  simp only []
  rw [if_neg (by rw [hst_eq]; push_neg; exact ⟨hst1, hst2⟩), hnp]
  simp only []
  rw [hsr]
  simp only []
  rw [hassign]
  simp only []
  rw [hunk]
  refine ⟨_, rfl, rfl, rfl, rfl, ?_⟩
  simp only []
  rw [hsr_eq]
  simp [oval, jvals, jfind_jput_same]

/-- A receiver snapshot whose identity `"test:v1"` has an unrecognised
device-type part. -/
def rsUnknownTypeO : JsonObj := listToObj [
  ("name", Json.str "test:v1"),
  ("sampleRate", Json.num 10000000),
  ("status", Json.str "idle")]

/-- The supervisor state on receiving that snapshot. -/
def c1State : MainState := { initState with receiverStatus := Json.obj rsUnknownTypeO }

/-- Counterexample to C1 as stated: at a receiver snapshot with an
unrecognised device type the reconciliation step returns `-1`, so the
main loop — far from continuing to poll — requests a shutdown (the
termination flag is set and one `finish` call is made). -/
theorem claim_c1_counterexample :
    (checkReceiverStatus c1State).map (fun t => (t.fst, t.snd.snd)) = some (-1, []) ∧
    (loopIter (-1) c1State 0).map
        (fun t => (t.fst.terminate, t.snd.finishCount)) = some (true, 1) := by
  constructor
  · decide
  · decide

/-- C1 as amended: an unrecognised device-type in the receiver identity
is logged and issues no Configure/Start command, but it is fatal — the
reconciliation step returns failure, the loop requests one shutdown and
stops polling (later ticks produce nothing). -/
theorem claim_c1_amended (nsecs : Int) (elapsedMs : Nat) (s : MainState)
    (rs dpo : JsonObj) (nm : String)
    (hterm : s.terminate = false)
    (hrs : s.receiverStatus = Json.obj rs)
    (hne : isEmptyJ (Json.obj rs) = false)
    (hst1 : oval (Json.obj rs) "status" ≠ Json.null)
    (hst2 : oval (Json.obj rs) "status" ≠ Json.str "absent")
    (hnm : jvals (Json.obj rs) "name" = some (Json.str nm))
    (hdp : s.decoderParams = Json.obj dpo)
    (hunk : jfind defaultReceiverProfiles (deviceKind nm) = none)
    (hdec : s.decoderStatus = Json.null)
    (htime : timeLimitHit nsecs elapsedMs = false) :
    ∃ s' e, loopIter nsecs s elapsedMs = some (s', e) ∧
      e.receiverCmds = [] ∧ e.decoderCmds = [] ∧ e.finishCount = 1 ∧
      s'.terminate = true ∧
      ∀ ts : List TickIn, loopRun nsecs s' ts = some (s', noEff) := by
  obtain ⟨s1, hcrs, hds, _, _, _⟩ := crs_unknown s rs dpo nm hrs hne hst1 hst2 hnm hdp hunk
  have hcds : checkDecoderStatus (finish s1) = some (0, finish s1, []) := by
    rw [checkDecoderStatus]
    have hnull : (finish s1).decoderStatus = Json.null := by simp [finish, hds, hdec]
    rw [hnull]
    simp [isEmptyJ]
  have hli : loopIter nsecs s elapsedMs =
      some (finish s1, { receiverCmds := [], decoderCmds := [], finishCount := 1 }) := by
    rw [loopIter, if_neg (by simp [hterm]), hcrs]
    simp only []
    rw [if_pos (show (-1 : Int) < 0 by norm_num)]
    rw [hcds]
    simp only []
    rw [if_neg (show ¬ (0 : Int) < 0 by norm_num), htime]
    simp
  exact ⟨finish s1, _, hli, rfl, rfl, rfl, rfl,
    loopRun_terminated nsecs (finish s1) rfl⟩

/-- Witness for the amended C1 at a concrete unknown-type snapshot. -/
theorem claim_c1_witness :
    ∃ s' e, loopIter (-1) c1State 0 = some (s', e) ∧
      e.receiverCmds = [] ∧ e.decoderCmds = [] ∧ e.finishCount = 1 ∧
      s'.terminate = true ∧
      ∀ ts : List TickIn, loopRun (-1) s' ts = some (s', noEff) :=
  claim_c1_amended (-1) 0 c1State rsUnknownTypeO decoderParamsInitO "test:v1"
    rfl rfl (by decide) (by decide) (by decide) (by decide) rfl (by decide) rfl (by decide)


/-! ## Claims C5, C6, C10 -/

/-- A tick in which no status snapshot has arrived yet (both statuses
still `null`): the two checks return 0 with no commands, and only the
time limit can trigger `finish`. -/
theorem loopIter_healthy (nsecs : Int) (elapsedMs : Nat) (s : MainState)
    (hterm : s.terminate = false)
    (hrs : s.receiverStatus = Json.null)
    (hds : s.decoderStatus = Json.null) :
    loopIter nsecs s elapsedMs =
      some ((if timeLimitHit nsecs elapsedMs then finish s else s),
        { receiverCmds := [], decoderCmds := [],
          finishCount := if timeLimitHit nsecs elapsedMs then 1 else 0 }) := by
  have hcrs : checkReceiverStatus s = some (0, s, []) := by
    rw [checkReceiverStatus, hrs]
    rfl
  have hcds : checkDecoderStatus s = some (0, s, []) := by
    rw [checkDecoderStatus, hds]
    rfl
  rw [loopIter, if_neg (by simp [hterm]), hcrs]
  simp only []
  rw [if_neg (show ¬ (0 : Int) < 0 by norm_num), hcds]
  simp only []
  rw [if_neg (show ¬ (0 : Int) < 0 by norm_num)]
  by_cases hhit : timeLimitHit nsecs elapsedMs = true
  · rw [hhit]
    simp
  · rw [Bool.not_eq_true] at hhit
    rw [hhit]
    simp

/-- C5: the shutdown request is idempotent — a second `finish` leaves the
state exactly as the first (one Task-Runtime stop flag, one termination
flag), and once finished the poll loop exits once and for all: any
sequence of later ticks produces no commands and no further requests. -/
theorem claim_c5_idempotent_shutdown :
    (∀ s : MainState, finish (finish s) = finish s) ∧
    (∀ s : MainState, (finish s).terminate = true ∧ (finish s).executorStopped = true) ∧
    (∀ (nsecs : Int) (s : MainState) (ts : List TickIn),
      loopRun nsecs (finish s) ts = some (finish s, noEff)) :=
  ⟨fun _ => rfl, fun _ => ⟨rfl, rfl⟩,
   fun nsecs s ts => loopRun_terminated nsecs (finish s) rfl ts⟩

/-- C6: with a positive limit of `nsecs` seconds, the time check fires
only strictly after `nsecs` elapsed seconds (so at or after the limit,
and never before it), it does fire once the limit is strictly exceeded,
and in a tick with healthy tasks the loop requests a shutdown exactly
when the check fires. -/
theorem claim_c6_time_limit :
    (∀ (nsecs : Int) (elapsedMs : Nat),
      timeLimitHit nsecs elapsedMs = true → nsecs * 1000 < (elapsedMs : Int)) ∧
    (∀ (nsecs : Int) (elapsedMs : Nat),
      (elapsedMs : Int) ≤ nsecs * 1000 → timeLimitHit nsecs elapsedMs = false) ∧
    (∀ (nsecs : Int) (elapsedMs : Nat), 0 < nsecs → nsecs * 1000 < (elapsedMs : Int) →
      timeLimitHit nsecs elapsedMs = true) ∧
    (∀ (nsecs : Int) (elapsedMs : Nat) (s : MainState),
      s.terminate = false → s.receiverStatus = Json.null → s.decoderStatus = Json.null →
      ∃ s', loopIter nsecs s elapsedMs = some (s',
          { receiverCmds := [], decoderCmds := [],
            finishCount := if timeLimitHit nsecs elapsedMs then 1 else 0 }) ∧
        s'.terminate = timeLimitHit nsecs elapsedMs) := by
  refine ⟨?_, ?_, ?_, ?_⟩
  · intro nsecs elapsedMs h
    simp only [timeLimitHit, Bool.and_eq_true, decide_eq_true_eq] at h
    exact h.2
  · intro nsecs elapsedMs h
    simp only [timeLimitHit, Bool.and_eq_false_iff, decide_eq_false_iff_not]
    right
    omega
  · intro nsecs elapsedMs h1 h2
    simp only [timeLimitHit, Bool.and_eq_true, decide_eq_true_eq]
    exact ⟨h1, h2⟩
  · intro nsecs elapsedMs s hterm hrs hds
    refine ⟨_, loopIter_healthy nsecs elapsedMs s hterm hrs hds, ?_⟩
    by_cases hhit : timeLimitHit nsecs elapsedMs = true
    · rw [hhit]; simp [finish]
    · rw [Bool.not_eq_true] at hhit; rw [hhit]; simp [hterm]

/-- Witness for C6: with a 5-second limit the check rejects 4999 ms and
5000 ms, fires at 5001 ms, and the loop then finishes exactly once. -/
theorem claim_c6_witness :
    timeLimitHit 5 4999 = false ∧ timeLimitHit 5 5000 = false ∧
    timeLimitHit 5 5001 = true ∧
    (∃ s', loopIter 5 initState 5001 = some (s',
        { receiverCmds := [], decoderCmds := [],
          finishCount := if timeLimitHit 5 5001 then 1 else 0 }) ∧
      s'.terminate = timeLimitHit 5 5001) :=
  ⟨claim_c6_time_limit.2.1 5 4999 (by norm_num),
   claim_c6_time_limit.2.1 5 5000 (by norm_num),
   claim_c6_time_limit.2.2.1 5 5001 (by norm_num) (by norm_num),
   claim_c6_time_limit.2.2.2 5 5001 initState rfl rfl rfl⟩

/-- C10 (implicit): a zero or negative `-t` value disables the time
limit — the elapsed-time check never fires for any elapsed time, and a
tick with healthy tasks leaves the loop running with no shutdown
request. -/
theorem claim_c10_nonpositive_limit :
    (∀ (nsecs : Int) (elapsedMs : Nat), nsecs ≤ 0 → timeLimitHit nsecs elapsedMs = false) ∧
    (∀ (nsecs : Int) (elapsedMs : Nat) (s : MainState), nsecs ≤ 0 →
      s.terminate = false → s.receiverStatus = Json.null → s.decoderStatus = Json.null →
      loopIter nsecs s elapsedMs = some (s, noEff)) := by
  have hoff : ∀ (nsecs : Int) (elapsedMs : Nat), nsecs ≤ 0 →
      timeLimitHit nsecs elapsedMs = false := by
    intro nsecs elapsedMs h
    simp only [timeLimitHit, Bool.and_eq_false_iff, decide_eq_false_iff_not]
    left
    omega
  refine ⟨hoff, ?_⟩
  intro nsecs elapsedMs s hn hterm hrs hds
  rw [loopIter_healthy nsecs elapsedMs s hterm hrs hds, hoff nsecs elapsedMs hn]
  rfl

/-- Witness for C10: the default `-1` and an explicit `0` limit never
fire, even after 10^9 ms, and the loop keeps running. -/
theorem claim_c10_witness :
    timeLimitHit (-1) 1000000000 = false ∧ timeLimitHit 0 1000000000 = false ∧
    loopIter (-1) initState 1000000000 = some (initState, noEff) :=
  ⟨claim_c10_nonpositive_limit.1 (-1) 1000000000 (by norm_num),
   claim_c10_nonpositive_limit.1 0 1000000000 (by norm_num),
   claim_c10_nonpositive_limit.2 (-1) 1000000000 initState (by norm_num) rfl rfl rfl⟩


/-! ## Claim C9 -/

/-- C9 fails on the code: for a poll frame whose rendered headers take
35 characters (`"0000000.000 " ++ "(PCD->PICC) " ++ "[NfcA@106]: "`) and
whose payload has 5451 bytes, the hex loop's offset — the sum of
`snprintf` return values, i.e. of untruncated lengths — passes 16384,
`sizeof(buffer) - offset` wraps around as `size_t`, and the next
`snprintf` writes outside the 16384-byte buffer.  A 5000-byte payload
still stays inside the buffer (truncation only), so the slip is exactly
the unclamped size arguments together with accumulating the untruncated
return value. -/
theorem claim_c9_printFrame_overflow :
    printFrameOk 11 12 12 true 5451 = false ∧
    hexLoopOk 35 5451 = false ∧
    printFrameOk 11 12 12 true 5000 = true := by
  have hx : hexLoopOk 35 5451 = false :=
    hexLoop_cross 5451 35 (by norm_num [BUFSZ]) (by norm_num [BUFSZ])
  have hok : hexLoopOk 35 5000 = true :=
    hexLoop_inBounds 5000 35 (by norm_num [BUFSZ])
  refine ⟨?_, hx, ?_⟩
  · rw [printFrameOk]
    have h35 : 11 + 12 + 12 = 35 := by norm_num
    rw [if_pos rfl, h35, hx]
    simp
  · rw [printFrameOk]
    have h35 : 11 + 12 + 12 = 35 := by norm_num
    rw [if_pos rfl, h35, hok]
    decide


/-! ## Claim C7 -/

/-- While the decoder's desired sample rate is `null` (or absent),
`checkDecoderStatus` publishes no command at all. -/
theorem cds_no_cmds_while_null (s : MainState) (r : Int) (s' : MainState) (cmds : List Cmd)
    (hnull : oval s.decoderParams "sampleRate" = Json.null)
    (h : checkDecoderStatus s = some (r, s', cmds)) : cmds = [] := by
  rw [checkDecoderStatus] at h
  by_cases hde : isEmptyJ s.decoderStatus = true
  · rw [if_pos hde] at h
    simp only [Option.some.injEq, Prod.mk.injEq] at h
    exact h.2.2.symm
  · rw [if_neg hde] at h
    cases hji : jindex s.decoderStatus "status" with
    | none => rw [hji] at h; exact absurd h (by simp)
    | some pr =>
      obtain ⟨st, ds1⟩ := pr
      rw [hji] at h
      simp only [] at h
      by_cases hst : st = Json.null
      · rw [if_pos hst] at h
        simp only [Option.some.injEq, Prod.mk.injEq] at h
        exact h.2.2.symm
      · rw [if_neg hst] at h
        cases hji2 : jindex s.decoderParams "sampleRate" with
        | none => rw [hji2] at h; exact absurd h (by simp)
        | some pr2 =>
          obtain ⟨sr, dp1⟩ := pr2
          rw [hji2] at h
          simp only [] at h
          have hsr : sr = Json.null := by
            have hx := (jindex_spec _ _ _ _ hji2).1
            rw [hx, hnull]
          rw [if_pos hsr] at h
          simp only [Option.some.injEq, Prod.mk.injEq] at h
          exact h.2.2.symm

/-- Whatever `checkReceiverStatus` goes on to do after the status and
name checks pass, the receiver's reported sample rate has been copied
into the decoder's desired configuration. -/
theorem crs_copies_rate (s : MainState) (rs dpo : JsonObj) (nm : String)
    (r : Int) (s' : MainState) (cmds : List Cmd)
    (hrs : s.receiverStatus = Json.obj rs)
    (hne : isEmptyJ (Json.obj rs) = false)
    (hst1 : oval (Json.obj rs) "status" ≠ Json.null)
    (hst2 : oval (Json.obj rs) "status" ≠ Json.str "absent")
    (hnm : jvals (Json.obj rs) "name" = some (Json.str nm))
    (hdp : s.decoderParams = Json.obj dpo)
    (h : checkReceiverStatus s = some (r, s', cmds)) :
    oval s'.decoderParams "sampleRate" = oval (Json.obj rs) "sampleRate" := by
  rcases hsp : jindexO rs "status" with ⟨st, rs1⟩
  have hst_eq : st = oval (Json.obj rs) "status" := by
    have hx := jindexO_fst rs "status"
    rw [hsp] at hx
    exact hx
  have hj : jindex (Json.obj rs) "status" = some (st, rs1) := by
    simp [jindex, hsp]
  have hfr1 : ∀ k', k' ≠ "status" → jfind rs1 k' = jfind rs k' := by
    intro k' hk
    have hx := jindexO_snd_find rs "status" k' hk
    rw [hsp] at hx
    exact hx
  have hnm1 : jfind rs1 "name" = some (Json.str nm) := by
    rw [hfr1 "name" (by decide)]
    exact hnm
  have hnp : jindexO rs1 "name" = (Json.str nm, rs1) := by
    simp [jindexO, hnm1]
  rcases hsr : jindexO rs1 "sampleRate" with ⟨sr, rs3⟩
  have hsr_eq : sr = oval (Json.obj rs) "sampleRate" := by
    have hx := jindexO_fst rs1 "sampleRate"
    rw [hsr] at hx
    simp only [] at hx
    rw [hx]
    simp [oval, jvals, hfr1 "sampleRate" (by decide)]
  have hassign : jassign s.decoderParams "sampleRate" sr =
      some (Json.obj (jput dpo "sampleRate" sr)) := by
    rw [hdp]; rfl
  rw [checkReceiverStatus, hrs, if_neg (by simp [hne]), hj] at h
  simp only [] at h
  rw [if_neg (by rw [hst_eq]; push_neg; exact ⟨hst1, hst2⟩), hnp] at h
  simp only [] at h
  rw [hsr] at h
  simp only [] at h
  rw [hassign] at h
  simp only [] at h
  have hgoal : oval (Json.obj (jput dpo "sampleRate" sr)) "sampleRate" =
      oval (Json.obj rs) "sampleRate" := by
    rw [← hsr_eq]
    simp [oval, jvals, jfind_jput_same]
  cases hdk : jfind defaultReceiverProfiles (deviceKind nm) with
  | none =>
      rw [hdk] at h
      simp only [Option.some.injEq, Prod.mk.injEq] at h
      obtain ⟨_, hs', _⟩ := h
      rw [← hs']
      exact hgoal
  | some profile =>
      rw [hdk] at h
      simp only [] at h
      cases hdc : detectChanges (Json.obj rs3) profile with
      | none => rw [hdc] at h; exact absurd h (by simp)
      | some pr =>
          obtain ⟨config, rs4⟩ := pr
          rw [hdc] at h
          simp only [] at h
          by_cases hemp : isEmptyJ config = true
          · rw [if_pos hemp] at h
            cases hji4 : jindex rs4 "status" with
            | none => rw [hji4] at h; exact absurd h (by simp)
            | some pr2 =>
                obtain ⟨st2, rs5⟩ := pr2
                rw [hji4] at h
                simp only [Option.some.injEq, Prod.mk.injEq] at h
                obtain ⟨_, hs', _⟩ := h
                rw [← hs']
                exact hgoal
          · rw [if_neg hemp] at h
            simp only [Option.some.injEq, Prod.mk.injEq] at h
            obtain ⟨_, hs', _⟩ := h
            rw [← hs']
            exact hgoal

/-- With a non-empty decoder snapshot, a non-null decoder status and a
populated sample rate, `checkDecoderStatus` gets past all gates: it
returns 0 and either marks the decoder configured or publishes its
Configure command. -/
theorem cds_proceeds (s : MainState) (dso : JsonObj) (r : Int) (s' : MainState) (cmds : List Cmd)
    (hds : s.decoderStatus = Json.obj dso)
    (hne : isEmptyJ (Json.obj dso) = false)
    (hst : oval (Json.obj dso) "status" ≠ Json.null)
    (hsr : oval s.decoderParams "sampleRate" ≠ Json.null)
    (h : checkDecoderStatus s = some (r, s', cmds)) :
    r = 0 ∧ (s'.decoderConfigured = true ∨ cmds ≠ []) := by
  rcases hsp : jindexO dso "status" with ⟨st, ds1⟩
  have hst_eq : st = oval (Json.obj dso) "status" := by
    have hx := jindexO_fst dso "status"
    rw [hsp] at hx
    exact hx
  have hj : jindex (Json.obj dso) "status" = some (st, ds1) := by
    simp [jindex, hsp]
  rw [checkDecoderStatus, hds, if_neg (by simp [hne]), hj] at h
  simp only [] at h
  rw [if_neg (by rw [hst_eq]; exact hst)] at h
  cases hji2 : jindex s.decoderParams "sampleRate" with
  | none => rw [hji2] at h; exact absurd h (by simp)
  | some pr2 =>
    obtain ⟨sr, dp1⟩ := pr2
    rw [hji2] at h
    simp only [] at h
    have hsrv : sr ≠ Json.null := by
      have hx := (jindex_spec _ _ _ _ hji2).1
      rw [hx]
      exact hsr
    rw [if_neg hsrv] at h
    cases hdc : detectChanges (Json.obj ds1) (Json.obj dp1) with
    | none => rw [hdc] at h; exact absurd h (by simp)
    | some pr3 =>
      obtain ⟨config, ds2⟩ := pr3
      rw [hdc] at h
      simp only [] at h
      by_cases hemp : isEmptyJ config = true
      · rw [if_pos hemp] at h
        cases hji4 : jindex ds2 "status" with
        | none => rw [hji4] at h; exact absurd h (by simp)
        | some pr4 =>
          obtain ⟨st2, ds3⟩ := pr4
          rw [hji4] at h
          simp only [Option.some.injEq, Prod.mk.injEq] at h
          obtain ⟨hr, hs', _⟩ := h
          refine ⟨hr.symm, Or.inl ?_⟩
          rw [← hs']
      · rw [if_neg hemp] at h
        simp only [Option.some.injEq, Prod.mk.injEq] at h
        obtain ⟨hr, _, hcmds⟩ := h
        refine ⟨hr.symm, Or.inr ?_⟩
        rw [← hcmds]
        simp

/-- C7: (a) the decoder never attempts a Configure or Start command
while its desired sample rate is unpopulated; (b) once the receiver
reports a good status and a string name, its reported sample rate is
copied into the decoder's desired configuration on every outcome of the
receiver check; (c) with the sample rate populated and a valid decoder
snapshot, decoder reconciliation proceeds (the check returns 0 and
either the decoder is marked configured or a Configure command goes
out). -/
theorem claim_c7_sample_rate_gating :
    (∀ (s : MainState) (r : Int) (s' : MainState) (cmds : List Cmd),
      oval s.decoderParams "sampleRate" = Json.null →
      checkDecoderStatus s = some (r, s', cmds) → cmds = []) ∧
    (∀ (s : MainState) (rs dpo : JsonObj) (nm : String) (r : Int) (s' : MainState)
        (cmds : List Cmd),
      s.receiverStatus = Json.obj rs → isEmptyJ (Json.obj rs) = false →
      oval (Json.obj rs) "status" ≠ Json.null →
      oval (Json.obj rs) "status" ≠ Json.str "absent" →
      jvals (Json.obj rs) "name" = some (Json.str nm) →
      s.decoderParams = Json.obj dpo →
      checkReceiverStatus s = some (r, s', cmds) →
      oval s'.decoderParams "sampleRate" = oval (Json.obj rs) "sampleRate") ∧
    (∀ (s : MainState) (dso : JsonObj) (r : Int) (s' : MainState) (cmds : List Cmd),
      s.decoderStatus = Json.obj dso → isEmptyJ (Json.obj dso) = false →
      oval (Json.obj dso) "status" ≠ Json.null →
      oval s.decoderParams "sampleRate" ≠ Json.null →
      checkDecoderStatus s = some (r, s', cmds) →
      r = 0 ∧ (s'.decoderConfigured = true ∨ cmds ≠ [])) :=
  ⟨fun s r s' cmds hn h => cds_no_cmds_while_null s r s' cmds hn h,
   fun s rs dpo nm r s' cmds h1 h2 h3 h4 h5 h6 h7 =>
     crs_copies_rate s rs dpo nm r s' cmds h1 h2 h3 h4 h5 h6 h7,
   fun s dso r s' cmds h1 h2 h3 h4 h5 =>
     cds_proceeds s dso r s' cmds h1 h2 h3 h4 h5⟩

/-- The supervisor state after the decoder reports an idle snapshot
before any receiver status arrived. -/
def c7State : MainState :=
  { initState with decoderStatus := jobj [("status", Json.str "idle")] }

/-- Witness for C7: with the sample rate still unset, the decoder check
at an idle decoder snapshot publishes no command. -/
theorem claim_c7_witness :
    (checkDecoderStatus c7State).map (fun t => t.snd.snd) = some ([] : List Cmd) := by
  rcases hc : checkDecoderStatus c7State with _ | ⟨r, s', cmds⟩
  · exact absurd hc (by decide)
  · rw [Option.map_some']
    rw [claim_c7_sample_rate_gating.1 c7State r s' cmds (by decide) hc]


/-! ## Claim C8 -/

/-- The `-p` handler on the initial decoder parameters: each family's
`enabled` flag becomes the result of the substring test for its name. -/
theorem setProtocols_spec (p : String) :
    setProtocols decoderParamsInit p =
      some (jobj [
        ("debugEnabled", Json.bool false),
        ("nfca", jobj [("enabled", Json.bool (strHas p "nfca"))]),
        ("nfcb", jobj [("enabled", Json.bool (strHas p "nfcb"))]),
        ("nfcf", jobj [("enabled", Json.bool (strHas p "nfcf"))]),
        ("nfcv", jobj [("enabled", Json.bool (strHas p "nfcv"))])]) := by
  rw [setProtocols]
  generalize strHas p "nfca" = b1
  generalize strHas p "nfcb" = b2
  generalize strHas p "nfcf" = b3
  generalize strHas p "nfcv" = b4
  cases b1 <;> cases b2 <;> cases b3 <;> cases b4 <;> decide

/-- Counterexample to C8 as stated: the flag value `"nfcab"` is a
one-element comma-separated list whose sole element is not a family
name, yet the handler enables `nfca` because the test is a substring
search, not list membership. -/
theorem claim_c8_counterexample :
    (setProtocols decoderParamsInit "nfcab").map
        (fun d => oval (oval d "nfca") "enabled") = some (Json.bool true) ∧
    listedIn "nfcab" "nfca" = false := by
  constructor
  · decide
  · decide

/-- C8 as amended: for every flag value, each family ends up enabled
exactly when its name occurs as a substring of the value
(`std::string::find`); on flag values that are comma-separated lists of
family names the substring test coincides with list membership. -/
theorem claim_c8_amended :
    (∀ p : String, ∃ d, setProtocols decoderParamsInit p = some d ∧
      oval (oval d "nfca") "enabled" = Json.bool (strHas p "nfca") ∧
      oval (oval d "nfcb") "enabled" = Json.bool (strHas p "nfcb") ∧
      oval (oval d "nfcf") "enabled" = Json.bool (strHas p "nfcf") ∧
      oval (oval d "nfcv") "enabled" = Json.bool (strHas p "nfcv") ∧
      oval d "debugEnabled" = Json.bool false) ∧
    (∀ q ∈ ["", "nfca", "nfcb", "nfcf", "nfcv", "nfca,nfcb", "nfca,nfcf", "nfca,nfcv",
            "nfcb,nfcf", "nfcb,nfcv", "nfcf,nfcv", "nfca,nfcb,nfcf", "nfca,nfcb,nfcv",
            "nfca,nfcf,nfcv", "nfcb,nfcf,nfcv", "nfca,nfcb,nfcf,nfcv"],
      ∀ f ∈ ["nfca", "nfcb", "nfcf", "nfcv"], strHas q f = listedIn q f) := by
  constructor
  · intro p
    refine ⟨_, setProtocols_spec p, ?_⟩
    generalize strHas p "nfca" = b1
    generalize strHas p "nfcb" = b2
    generalize strHas p "nfcf" = b3
    generalize strHas p "nfcv" = b4
    cases b1 <;> cases b2 <;> cases b3 <;> cases b4 <;> decide
  · decide

/-- Witness for the amended C8 at the flag value `"nfcb,nfcv"`. -/
theorem claim_c8_witness :
    (∃ d, setProtocols decoderParamsInit "nfcb,nfcv" = some d ∧
      oval (oval d "nfca") "enabled" = Json.bool (strHas "nfcb,nfcv" "nfca") ∧
      oval (oval d "nfcb") "enabled" = Json.bool (strHas "nfcb,nfcv" "nfcb") ∧
      oval (oval d "nfcf") "enabled" = Json.bool (strHas "nfcb,nfcv" "nfcf") ∧
      oval (oval d "nfcv") "enabled" = Json.bool (strHas "nfcb,nfcv" "nfcv") ∧
      oval d "debugEnabled" = Json.bool false) ∧
    strHas "nfcb,nfcv" "nfcv" = listedIn "nfcb,nfcv" "nfcv" ∧
    strHas "nfcb,nfcv" "nfca" = listedIn "nfcb,nfcv" "nfca" :=
  ⟨claim_c8_amended.1 "nfcb,nfcv",
   claim_c8_amended.2 "nfcb,nfcv" (by decide) "nfcv" (by decide),
   claim_c8_amended.2 "nfcb,nfcv" (by decide) "nfca" (by decide)⟩


/-! ## Claims C2 and C3 -/

theorem jvals_jsonOfAcc : ∀ (a : JsonObj) (k : String),
    jvals (jsonOfAcc a) k = jfind a k
  | JsonObj.nil, k => by simp [jsonOfAcc, jvals, jfind]
  | JsonObj.cons k' v r, k => by simp [jsonOfAcc, jvals]

/-- Unfolding the `detectChanges` wrapper on an object `set`. -/
theorem detectChanges_obj_elim (O : Json) (D : JsonObj) (r O' : Json)
    (h : detectChanges O (Json.obj D) = some (r, O')) :
    ∃ acc, detectChangesObj O D JsonObj.nil = some (acc, O') ∧ r = jsonOfAcc acc := by
  rw [detectChanges] at h
  cases hdo : detectChangesObj O D JsonObj.nil with
  | none => rw [hdo] at h; exact absurd h (by simp)
  | some pr =>
      obtain ⟨acc, refOut⟩ := pr
      rw [hdo] at h
      simp only [Option.some.injEq, Prod.mk.injEq] at h
      obtain ⟨hr, hrefl⟩ := h
      subst hrefl
      exact ⟨acc, rfl, hr.symm⟩

/-- C2: the diff contains exactly the differing keys — a key absent from
the desired tree never appears; a nested key appears exactly when its
recursive diff (computed against the observed subtree, or against `null`
when it is absent, which behaves as an empty tree) is non-empty, and
then holds that sub-diff; a scalar key appears, with the desired value,
exactly when the observed value differs (absence reads as `null`); a key
whose values agree on both sides never appears; and `diff(X, X)` is the
empty diff for every well-formed configuration tree `X`, leaving `X`
unchanged. -/
theorem claim_c2_diff_exactness :
    (∀ (O : Json) (D : JsonObj) (r O' : Json),
      nodupO D = true →
      detectChanges O (Json.obj D) = some (r, O') →
      ∀ k : String,
        (jfind D k = none → jvals r k = none) ∧
        (∀ d, jfind D k = some d →
          (isObjB d = true → ∃ tmp O'', detectChanges (oval O k) d = some (tmp, O'') ∧
            jvals r k = (if isEmptyJ tmp then none else some tmp)) ∧
          (isObjB d = false → jvals r k = (if oval O k ≠ d then some d else none)) ∧
          (oval O k = d → wfJ d = true → jvals r k = none))) ∧
    (∀ X : Json, wfJ X = true → (isObjB X = true ∨ X = Json.null) →
      detectChanges X X = some (Json.null, X)) ∧
    (∀ (o acc : JsonObj), (detectChangesObj Json.null o acc).map Prod.fst =
      (detectChangesObj (Json.obj JsonObj.nil) o acc).map Prod.fst) := by
  refine ⟨?_, detectChanges_id, ?_⟩
  · intro O D r O' hnd h k
    obtain ⟨acc, hdo, hr⟩ := detectChanges_obj_elim O D r O' h
    have spec := dco_spec D O JsonObj.nil acc O' hnd hdo k
    subst hr
    refine ⟨?_, ?_⟩
    · intro hnone
      rw [jvals_jsonOfAcc, (spec.1 hnone).1, jfind]
    · intro d hd
      refine ⟨?_, ?_, ?_⟩
      · intro hobj
        obtain ⟨tmp, sub', hsub, _, hacc⟩ := (spec.2 d hd).1 hobj
        refine ⟨tmp, sub', hsub, ?_⟩
        rw [jvals_jsonOfAcc, hacc]
        by_cases he : isEmptyJ tmp = true
        · simp [he, jfind]
        · simp [he]
      · intro hsc
        have hacc := ((spec.2 d hd).2 hsc).2
        rw [jvals_jsonOfAcc, hacc]
        by_cases hne : oval O k ≠ d
        · simp [hne]
        · simp [hne, jfind]
      · intro heq hwf
        by_cases hobj : isObjB d = true
        · obtain ⟨tmp, sub', hsub, _, hacc⟩ := (spec.2 d hd).1 hobj
          have hid : detectChanges (oval O k) d = some (Json.null, d) := by
            rw [heq]
            exact detectChanges_id d hwf (Or.inl hobj)
          rw [hid] at hsub
          injection hsub with hsub
          injection hsub with htmp _
          rw [jvals_jsonOfAcc, hacc, ← htmp]
          simp [isEmptyJ, jfind]
        · have hacc := ((spec.2 d hd).2 (by simpa using hobj)).2
          rw [jvals_jsonOfAcc, hacc, heq]
          simp [jfind]
  · intro o acc
    cases o with
    | nil => rfl
    | cons k v rest => cases v <;> rfl

/-- The spec's worked diff example, observed side. -/
def c2Obs : Json := jobj [("a", Json.num 1), ("b", jobj [("c", Json.num 9), ("d", Json.num 3)])]

/-- The spec's worked diff example, desired side. -/
def c2DesO : JsonObj := listToObj [("a", Json.num 1), ("b", jobj [("c", Json.num 2), ("d", Json.num 3)])]

/-- The spec's worked diff example, expected patch. -/
def c2Diff : Json := jobj [("b", jobj [("c", Json.num 2)])]

/-- Witness for C2 at the spec's worked example: the agreeing key `"a"`
is absent from the diff, and the desired tree diffed against itself is
empty. -/
theorem claim_c2_witness :
    jvals c2Diff "a" = none ∧
    detectChanges (Json.obj c2DesO) (Json.obj c2DesO) =
      some (Json.null, Json.obj c2DesO) :=
  ⟨((claim_c2_diff_exactness.1 c2Obs c2DesO c2Diff c2Obs (by decide) (by decide) "a").2
      (Json.num 1) (by decide)).2.2 (by decide) (by decide),
   claim_c2_diff_exactness.2.1 (Json.obj c2DesO) (by decide) (Or.inl (by decide))⟩

/-- Counterexample to C3 as stated: diffing the empty observed tree
against `{a: 1}` inserts a `null` entry for `"a"` into the observed
tree — the call does not leave the observed tree unchanged. -/
theorem claim_c3_counterexample :
    detectChanges (Json.obj JsonObj.nil) (jobj [("a", Json.num 1)]) =
      some (jobj [("a", Json.num 1)], jobj [("a", Json.null)]) ∧
    jobj [("a", Json.null)] ≠ Json.obj JsonObj.nil := by
  constructor
  · decide
  · decide

/-- C3 as amended: the differ is deterministic (it is a function of its
two arguments) and never writes through the desired tree, but it does
mutate the observed tree through non-const `operator[]`: keys outside
the desired tree keep their stored values; at a scalar desired key the
observed tree afterwards stores exactly its previous value — with `null`
newly materialised when the key was absent; at a nested desired key it
stores the recursively visited (null-extended) subtree. -/
theorem claim_c3_amended :
    ∀ (O : Json) (D : JsonObj) (r O' : Json),
      nodupO D = true →
      detectChanges O (Json.obj D) = some (r, O') →
      ∀ k : String,
        (jfind D k = none → jvals O' k = jvals O k) ∧
        (∀ d, jfind D k = some d →
          (isObjB d = false → jvals O' k = some (oval O k)) ∧
          (isObjB d = true → ∃ tmp sub', detectChanges (oval O k) d = some (tmp, sub') ∧
            jvals O' k = some sub')) := by
  intro O D r O' hnd h k
  obtain ⟨acc, hdo, _⟩ := detectChanges_obj_elim O D r O' h
  have spec := dco_spec D O JsonObj.nil acc O' hnd hdo k
  refine ⟨fun hnone => (spec.1 hnone).2, fun d hd => ⟨?_, ?_⟩⟩
  · intro hsc
    exact ((spec.2 d hd).2 hsc).1
  · intro hobj
    obtain ⟨tmp, sub', hsub, href, _⟩ := (spec.2 d hd).1 hobj
    exact ⟨tmp, sub', hsub, href⟩

/-- Witness for the amended C3: after diffing `{}` against `{a: 1}` the
observed tree stores `null` at `"a"` (the materialised placeholder). -/
theorem claim_c3_witness :
    jvals (jobj [("a", Json.null)]) "a" = some (oval (Json.obj JsonObj.nil) "a") :=
  ((claim_c3_amended (Json.obj JsonObj.nil) (JsonObj.cons "a" (Json.num 1) JsonObj.nil)
      (jobj [("a", Json.num 1)]) (jobj [("a", Json.null)]) (by decide) (by decide) "a").2
      (Json.num 1) (by decide)).1 (by decide)

end NfcRx
